import Mathlib

/-!
Verification development for the Pomodoro desktop timer (`main.py`).

The file shallowly embeds the three core components of the program:

* `DatabaseManager` — the sqlite-backed persistence store (sessions table,
  singleton settings row, daily aggregation query);
* `TimerThread` — the background countdown loop (`run`, `start_timer`,
  `pause_timer`, `resume_timer`, `stop_timer`);
* `PomodoroApp` — the session-cycle controller (`get_current_duration`,
  `start_timer`, `reset_timer`, `timer_finished`, `move_to_next_session`).

Machine integers are Python integers, embedded as `Int` (Python ints are
unbounded, so no wrap-around modelling is needed).  Sqlite TEXT comparison
(`date >= ?`, `ORDER BY day`) is byte-wise memcmp on UTF-8, which on the
code-point lists of valid strings is lexicographic comparison of the
character lists; it is embedded as the executable `charListLt`.  Sqlite's
`date(t)` applied to the ISO-8601 timestamps produced by
`datetime.now().isoformat()` returns the first ten characters of `t`.
-/

set_option maxRecDepth 4096

namespace PomodoroSpec

/-- Byte-wise (code-point-wise) lexicographic strict comparison of character
lists; this is the order sqlite's BINARY collation gives to the UTF-8 TEXT
values stored in the `sessions.date` column. -/
def charListLt : List Char → List Char → Bool
  | [], [] => false
  | [], _ :: _ => true
  | _ :: _, [] => false
  | a :: as, b :: bs => if a < b then true else if b < a then false else charListLt as bs

/-- Strict string comparison under sqlite's BINARY collation. -/
def strLtb (a b : String) : Bool := charListLt a.data b.data

/-- Non-strict string comparison under sqlite's BINARY collation; sqlite's
`x >= y` on TEXT is the negation of `x < y`. -/
def strLeb (a b : String) : Bool := ! strLtb b a

/-- Calendar day of an ISO-8601 timestamp: sqlite's `date(t)` on the
`datetime.now().isoformat()` values is the `YYYY-MM-DD` prefix. -/
def dayOf (t : String) : String := t.take 10

/-- An sqlite storage value: the settings columns hold INTEGER or TEXT and
sqlite is dynamically typed, so a column update may store either. -/
inductive Value
  | intV (i : Int)
  | strV (s : String)
  deriving DecidableEq, Repr

/-- The singleton settings row (`settings` table, `main.py` lines 43-55).
The `id` primary-key column is kept implicit: the store holds at most one
row, `get_settings` (`ORDER BY id DESC LIMIT 1`) returns it, and every
`UPDATE ... WHERE id = ?` issued by `update_settings` targets exactly that
row (no caller ever updates `id` itself). -/
structure SettingsRow where
  work_duration : Value
  short_break : Value
  long_break : Value
  long_break_interval : Value
  auto_start_breaks : Value
  auto_start_work : Value
  sound_enabled : Value
  username : Value
  deriving DecidableEq, Repr

/-- Reading one named column of the settings row. -/
def getColumn (r : SettingsRow) (k : String) : Option Value :=
  if k = "work_duration" then some r.work_duration
  else if k = "short_break" then some r.short_break
  else if k = "long_break" then some r.long_break
  else if k = "long_break_interval" then some r.long_break_interval
  else if k = "auto_start_breaks" then some r.auto_start_breaks
  else if k = "auto_start_work" then some r.auto_start_work
  else if k = "sound_enabled" then some r.sound_enabled
  else if k = "username" then some r.username
  else none

/-- One `UPDATE settings SET {k} = ? WHERE id = ?` statement (`main.py`
line 99).  The column name is spliced into the SQL text, so an unknown
name makes sqlite raise `OperationalError: no such column` — embedded as
`none`; a known name updates that column of the row. -/
def setColumn (r : SettingsRow) (k : String) (v : Value) : Option SettingsRow :=
  if k = "work_duration" then some { r with work_duration := v }
  else if k = "short_break" then some { r with short_break := v }
  else if k = "long_break" then some { r with long_break := v }
  else if k = "long_break_interval" then some { r with long_break_interval := v }
  else if k = "auto_start_breaks" then some { r with auto_start_breaks := v }
  else if k = "auto_start_work" then some { r with auto_start_work := v }
  else if k = "sound_enabled" then some { r with sound_enabled := v }
  else if k = "username" then some { r with username := v }
  else none

/-- The updatable column names of the settings schema. -/
def validColumn (k : String) : Bool :=
  k == "work_duration" || k == "short_break" || k == "long_break" ||
  k == "long_break_interval" || k == "auto_start_breaks" || k == "auto_start_work" ||
  k == "sound_enabled" || k == "username"

namespace DatabaseManager

/-- The loop body of `update_settings` (`main.py` lines 98-99): one
`cursor.execute` per supplied field, in kwargs order.  The first unknown
column name raises, aborting the loop; columns written before the raise
stay written on the connection (the threaded row), the rest are skipped.
Returns the row as visible on the connection afterwards, paired with
`true` when every statement succeeded. -/
def applyUpdates (r : SettingsRow) : List (String × Value) → SettingsRow × Bool
  | [] => (r, true)
  | (k, v) :: rest =>
    match setColumn r k v with
    | some r' => applyUpdates r' rest
    | none => (r, false)

/-- Effect of the valid updates only, used to describe the row that the
failing call leaves behind. -/
def applyValidFields (r : SettingsRow) (fields : List (String × Value)) : SettingsRow :=
  fields.foldl (fun acc p => (setColumn acc p.1 p.2).getD acc) r

/-- `DatabaseManager.get_settings` (`main.py` lines 87-90): returns the
most recent (sole) settings row, or `None` when the table is empty. -/
def get_settings (store : Option SettingsRow) : Option SettingsRow := store

/-- `DatabaseManager.update_settings` (`main.py` lines 92-100): reads the
current row; when none exists the loop body is skipped entirely (silent
no-op); otherwise each supplied field is applied by its own UPDATE
statement.  The `Bool` is `true` when the call returned normally (and the
final `commit` ran) and `false` when an unknown column name raised; in the
failing case the row component is the partially-updated row still visible
through the (single) connection. -/
def update_settings (store : Option SettingsRow) (kwargs : List (String × Value)) :
    Option SettingsRow × Bool :=
  match store with
  | none => (none, true)
  | some r =>
    let p := applyUpdates r kwargs
    (some p.1, p.2)

end DatabaseManager

/-- One row of the `sessions` table (`main.py` lines 30-40), the `id`
autoincrement column left implicit (rows are only ever appended). -/
structure SessionRow where
  date : String
  session_type : String
  duration : Int
  completed : Int
  task_name : String
  notes : String
  deriving DecidableEq, Repr

namespace DatabaseManager

/-- `DatabaseManager.add_session` (`main.py` lines 69-75): appends one row
with the current timestamp (passed in as `now`). -/
def add_session (db : List SessionRow) (now : String) (session_type : String)
    (duration : Int) (completed : Int) (task_name : String) (notes : String) :
    List SessionRow :=
  db ++ [{ date := now, session_type := session_type, duration := duration,
           completed := completed, task_name := task_name, notes := notes }]

end DatabaseManager

/-- One row of the `get_daily_stats` result set. -/
structure DailyStat where
  day : String
  total_sessions : Nat
  completed_sessions : Nat
  work_minutes : Int
  deriving DecidableEq, Repr

/-- Insertion into a strictly-ascending duplicate-free list of day strings;
folding it over the filtered rows yields the distinct `GROUP BY date(date)`
keys in `ORDER BY day` (ascending) order. -/
def insertDay (d : String) : List String → List String
  | [] => [d]
  | x :: xs =>
    if d = x then x :: xs
    else if strLtb d x then d :: x :: xs
    else x :: insertDay d xs

namespace DatabaseManager

/-- Aggregates of one `GROUP BY date(date)` group: `COUNT(*)`,
`SUM(CASE WHEN completed = 1 THEN 1 ELSE 0 END)`, and
`SUM(CASE WHEN session_type = 'work' AND completed = 1 THEN duration
ELSE 0 END)` over the in-window rows whose day is `d`. -/
def dayStat (rows : List SessionRow) (d : String) : DailyStat :=
  { day := d
    total_sessions := (rows.filter fun s => dayOf s.date == d).length
    completed_sessions :=
      ((rows.filter fun s => dayOf s.date == d).filter fun s => s.completed == 1).length
    work_minutes :=
      ((rows.filter fun s => dayOf s.date == d).map fun s =>
        if s.session_type == "work" && s.completed == 1 then s.duration else 0).sum }

/-- `DatabaseManager.get_daily_stats` (`main.py` lines 102-115): rows with
`date >= date_limit`, grouped by `date(date)`, one result row per distinct
day carrying the group's aggregates, ordered ascending by day. -/
def get_daily_stats (sessions : List SessionRow) (date_limit : String) : List DailyStat :=
  ((sessions.filter fun s => strLeb date_limit s.date).foldl
      (fun acc s => insertDay (dayOf s.date) acc) []).map
    (dayStat (sessions.filter fun s => strLeb date_limit s.date))

end DatabaseManager

/-- The mutable fields of `TimerThread` (`main.py` lines 121-126). -/
structure TimerState where
  duration : Int
  remaining : Int
  is_running : Bool
  is_paused : Bool
  deriving DecidableEq, Repr

/-- The two Qt signals the countdown loop emits. -/
inductive TimerEvent
  | timeUpdated (remaining : Int)
  | finished
  deriving DecidableEq, Repr

namespace TimerThread

/-- `TimerThread.start_timer` (`main.py` lines 139-145): unconditionally
installs the new duration, resets `remaining`, and marks the thread
running and unpaused (the `self.start()` call only (re)launches the OS
thread executing `run`). -/
def start_timer (s : TimerState) (duration : Int) : TimerState :=
  { s with duration := duration, remaining := duration, is_running := true, is_paused := false }

/-- `TimerThread.pause_timer` (`main.py` lines 147-148). -/
def pause_timer (s : TimerState) : TimerState := { s with is_paused := true }

/-- `TimerThread.resume_timer` (`main.py` lines 150-151). -/
def resume_timer (s : TimerState) : TimerState := { s with is_paused := false }

/-- `TimerThread.stop_timer` (`main.py` lines 153-159). -/
def stop_timer (s : TimerState) : TimerState :=
  { s with is_running := false, is_paused := false, remaining := 0 }

/-- The `run` loop of `TimerThread` (`main.py` lines 128-137), observed for
`fuel` one-second iterations starting at iteration index `k` with
`remaining = r`.  The `is_paused` flag is written asynchronously by the
GUI thread, so it is externalised as the schedule `p : Nat → Bool` giving
the flag's value at each iteration.  A paused iteration only sleeps; an
unpaused one first emits `time_updated(remaining)`, then either finishes
(when `remaining <= 0`) or decrements.  `fuel` running out models a loop
still in progress (no `stop_timer` call occurs during the observed run). -/
def runLoop (p : Nat → Bool) : Nat → Nat → Int → List TimerEvent
  | 0, _, _ => []
  | fuel + 1, k, r =>
    if p k then runLoop p fuel (k + 1) r
    else if r ≤ 0 then [TimerEvent.timeUpdated r, TimerEvent.finished]
    else TimerEvent.timeUpdated r :: runLoop p fuel (k + 1) (r - 1)

/-- The `run` loop with the pause flag never set. -/
def runUninterrupted (fuel : Nat) (r : Int) : List TimerEvent :=
  runLoop (fun _ => false) fuel 0 r

/-- The `time_updated` emissions of a full natural countdown from `n`:
values `n, n-1, ..., 1, 0`. -/
def countdownEvents : Nat → List TimerEvent
  | 0 => [TimerEvent.timeUpdated 0]
  | n + 1 => TimerEvent.timeUpdated ((n : Int) + 1) :: countdownEvents n

/-- The integers `n, n-1, ..., 0` as a list. -/
def descInts : Nat → List Int
  | 0 => [0]
  | n + 1 => ((n : Int) + 1) :: descInts n

/-- Recogniser for `time_updated` events. -/
def isTimeUpdated : TimerEvent → Bool
  | TimerEvent.timeUpdated _ => true
  | TimerEvent.finished => false

/-- Recogniser for `timer_finished` events. -/
def isFinishedEv : TimerEvent → Bool
  | TimerEvent.timeUpdated _ => false
  | TimerEvent.finished => true

/-- Recogniser for the `time_updated` emission of a decrementing iteration:
an iteration decrements `remaining` exactly when it emits `time_updated`
with a positive value. -/
def posTU : TimerEvent → Bool
  | TimerEvent.timeUpdated r => decide (0 < r)
  | TimerEvent.finished => false

/-- Number of `time_updated` events in a trace. -/
def countTU (l : List TimerEvent) : Nat := l.countP isTimeUpdated

/-- Number of `timer_finished` events in a trace. -/
def countFin (l : List TimerEvent) : Nat := l.countP isFinishedEv

/-- Number of decrementing iterations recorded in a trace. -/
def countPosTU (l : List TimerEvent) : Nat := l.countP posTU

/-- The values carried by the `time_updated` events of a trace, in order. -/
def tuValues (l : List TimerEvent) : List Int :=
  l.filterMap fun e =>
    match e with
    | TimerEvent.timeUpdated r => some r
    | TimerEvent.finished => none

end TimerThread

/-- The controller state of `PomodoroApp`: the cached settings
(`load_settings`, `main.py` lines 747-756), the cycle counters
(lines 392-394), the session history as stored through `db_manager`, the
engine handle, and the task-name text field. -/
structure AppState where
  db : List SessionRow
  work_duration : Int
  short_break_duration : Int
  long_break_duration : Int
  long_break_interval : Int
  auto_start_breaks : Bool
  auto_start_work : Bool
  sound_enabled : Bool
  current_session : Int
  session_type : String
  is_running : Bool
  timer : TimerState
  task_input : String
  deriving DecidableEq, Repr

namespace PomodoroApp

/-- `PomodoroApp.get_current_duration` (`main.py` lines 834-840). -/
def get_current_duration (a : AppState) : Int :=
  if a.session_type = "work" then a.work_duration
  else if a.session_type = "short_break" then a.short_break_duration
  else a.long_break_duration

/-- `PomodoroApp.start_timer` (`main.py` lines 795-807): when not running,
starts the engine with the current duration in seconds; when running but
paused, resumes; otherwise a no-op. -/
def start_timer (a : AppState) : AppState :=
  if a.is_running = false then
    { a with timer := TimerThread.start_timer a.timer (get_current_duration a * 60),
             is_running := true }
  else if a.timer.is_paused = true then
    { a with timer := TimerThread.resume_timer a.timer }
  else a

/-- `PomodoroApp.reset_timer` (`main.py` lines 823-832): stops the engine
and redraws the display; the session history is not touched. -/
def reset_timer (a : AppState) : AppState :=
  { a with timer := TimerThread.stop_timer a.timer, is_running := false }

/-- The transition rule of `move_to_next_session` (`main.py` lines
872-907): after a work session, increment `current_session` and pick
`long_break` exactly when the cumulative counter is a multiple of
`long_break_interval`, otherwise `short_break`; after any break, go back
to `work`.  Python's `%` agrees with `Int.emod` for the positive divisors
the settings allow. -/
def advance_session (a : AppState) : AppState :=
  if a.session_type = "work" then
    if (a.current_session + 1) % a.long_break_interval = 0 then
      { a with current_session := a.current_session + 1, session_type := "long_break" }
    else
      { a with current_session := a.current_session + 1, session_type := "short_break" }
  else
    { a with session_type := "work" }

/-- The auto-start policy at the end of `move_to_next_session` (`main.py`
lines 916-919). -/
def auto_start (a : AppState) : AppState :=
  if (a.session_type ≠ "work" ∧ a.auto_start_breaks = true) ∨
      (a.session_type = "work" ∧ a.auto_start_work = true) then
    start_timer a
  else a

/-- `PomodoroApp.move_to_next_session` (`main.py` lines 871-919): the
transition rule followed by the auto-start policy. -/
def move_to_next_session (a : AppState) : AppState :=
  auto_start (advance_session a)

/-- `PomodoroApp.timer_finished` (`main.py` lines 851-869): clears the
running flag, persists one completed session row for the current session
type — the duration re-read from the cached settings via
`get_current_duration` at completion time — then advances the cycle. -/
def timer_finished (now : String) (a : AppState) : AppState :=
  let a1 : AppState := { a with is_running := false }
  let a2 : AppState :=
    { a1 with db := DatabaseManager.add_session a1.db now a1.session_type
                      (get_current_duration a1) 1 a1.task_input "" }
  move_to_next_session a2

end PomodoroApp

/-- A concrete app state with the default settings (work 25, short break 5,
long break 15, interval 4, auto-start off), idle engine, empty history. -/
def demoState : AppState :=
  { db := []
    work_duration := 25
    short_break_duration := 5
    long_break_duration := 15
    long_break_interval := 4
    auto_start_breaks := false
    auto_start_work := false
    sound_enabled := true
    current_session := 0
    session_type := "work"
    is_running := false
    timer := { duration := 0, remaining := 0, is_running := false, is_paused := false }
    task_input := "" }

/-- The state after `n` consecutive natural completions starting from
`demoState` (every session, work and break alike, runs to zero). -/
def demoStates : Nat → AppState
  | 0 => demoState
  | n + 1 => PomodoroApp.timer_finished "2026-01-01T00:00:00" (demoStates n)

/-- A concrete settings row holding the seeded defaults. -/
def sampleRow : SettingsRow :=
  { work_duration := Value.intV 25
    short_break := Value.intV 5
    long_break := Value.intV 15
    long_break_interval := Value.intV 4
    auto_start_breaks := Value.intV 0
    auto_start_work := Value.intV 0
    sound_enabled := Value.intV 1
    username := Value.strV "user" }

/-- Effect on the controller of editing the work duration in the settings
dialog while a countdown is running: `save_settings` writes the row and
`load_settings` refreshes the cached copy (`main.py` lines 747-756,
790-793), so only the cached `work_duration` changes — the engine state is
untouched and keeps counting. -/
def set_work_duration (a : AppState) (v : Int) : AppState :=
  { a with work_duration := v }

/-- A concrete one-session history used to instantiate the statistics
claims. -/
def exSessions : List SessionRow :=
  [{ date := "2026-01-05T10:00:00", session_type := "work", duration := 25,
     completed := 1, task_name := "t", notes := "" }]

/-- The daily aggregate row `get_daily_stats` produces for `exSessions`. -/
def exStat : DailyStat :=
  { day := "2026-01-05", total_sessions := 1, completed_sessions := 1, work_minutes := 25 }

namespace TimerThread

theorem runLoop_paused (p : Nat → Bool) (fuel k : Nat) (r : Int) (hp : p k = true) :
    runLoop p (fuel + 1) k r = runLoop p fuel (k + 1) r := by
  simp [runLoop, hp]

theorem runLoop_natural (n : Nat) : ∀ (fuel k : Nat), n + 1 ≤ fuel →
    runLoop (fun _ => false) fuel k (n : Int) = countdownEvents n ++ [TimerEvent.finished] := by
  induction n with
  | zero =>
    intro fuel k h
    match fuel, h with
    | fuel + 1, _ => simp [runLoop, countdownEvents]
  | succ m ih =>
    intro fuel k h
    match fuel, h with
    | fuel + 1, h =>
      have h1 : ¬ (((m + 1 : Nat) : Int) ≤ 0) := by push_cast; omega
      have h2 : ((m + 1 : Nat) : Int) - 1 = (m : Int) := by push_cast; omega
      simp only [runLoop, Bool.false_eq_true, if_false, if_neg h1, h2,
        ih fuel (k + 1) (by omega), countdownEvents]
      push_cast
      simp

theorem runLoop_finished_eq (p : Nat → Bool) : ∀ (fuel k : Nat) (n : Nat),
    TimerEvent.finished ∈ runLoop p fuel k (n : Int) →
    runLoop p fuel k (n : Int) = countdownEvents n ++ [TimerEvent.finished] := by
  intro fuel
  induction fuel with
  | zero => intro k n h; simp [runLoop] at h
  | succ fuel ih =>
    intro k n h
    by_cases hp : p k = true
    · rw [runLoop_paused p fuel k _ hp] at h ⊢
      exact ih (k + 1) n h
    · have hp' : p k = false := by simpa using hp
      cases n with
      | zero => simp [runLoop, hp', countdownEvents]
      | succ m =>
        have h1 : ¬ (((m + 1 : Nat) : Int) ≤ 0) := by push_cast; omega
        have h2 : ((m + 1 : Nat) : Int) - 1 = (m : Int) := by push_cast; omega
        simp only [runLoop, hp', Bool.false_eq_true, if_false, if_neg h1, h2] at h ⊢
        have hmem : TimerEvent.finished ∈ runLoop p fuel (k + 1) (m : Int) := by
          rcases List.mem_cons.mp h with heq | hmem
          · cases heq
          · exact hmem
        rw [ih (k + 1) m hmem]
        simp only [countdownEvents]
        push_cast
        simp

theorem countTU_countdownEvents (n : Nat) : countTU (countdownEvents n) = n + 1 := by
  induction n with
  | zero => rfl
  | succ m ih => simp [countdownEvents, countTU, isTimeUpdated, List.countP_cons] at ih ⊢; omega

theorem countFin_countdownEvents (n : Nat) : countFin (countdownEvents n) = 0 := by
  induction n with
  | zero => rfl
  | succ m ih => simpa [countdownEvents, countFin, isFinishedEv, List.countP_cons] using ih

theorem countPosTU_countdownEvents (n : Nat) : countPosTU (countdownEvents n) = n := by
  induction n with
  | zero => rfl
  | succ m ih =>
    have hpos : posTU (TimerEvent.timeUpdated ((m : Int) + 1)) = true := by
      simp [posTU]
    simp [countdownEvents, countPosTU, List.countP_cons, hpos] at ih ⊢
    omega

theorem tuValues_countdownEvents (n : Nat) : tuValues (countdownEvents n) = descInts n := by
  induction n with
  | zero => rfl
  | succ m ih => simp [countdownEvents, descInts, tuValues, List.filterMap_cons] at ih ⊢; exact ih

theorem descInts_head (n : Nat) : (descInts n).head? = some (n : Int) := by
  cases n <;> simp [descInts]

theorem descInts_chain (n : Nat) : List.Chain' (fun a b => b < a) (descInts n) := by
  induction n with
  | zero => simp [descInts]
  | succ m ih =>
    rw [descInts, List.chain'_cons']
    refine ⟨?_, ih⟩
    intro y hy
    rw [descInts_head] at hy
    simp only [Option.mem_def, Option.some_inj] at hy
    omega

theorem countdownEvents_concat (n : Nat) :
    ∃ l, countdownEvents n = l ++ [TimerEvent.timeUpdated 0] := by
  induction n with
  | zero => exact ⟨[], rfl⟩
  | succ m ih =>
    obtain ⟨l, hl⟩ := ih
    exact ⟨TimerEvent.timeUpdated ((m : Int) + 1) :: l, by rw [countdownEvents, hl]; rfl⟩

theorem countTU_trace (n : Nat) :
    countTU (countdownEvents n ++ [TimerEvent.finished]) = n + 1 := by
  rw [countTU, List.countP_append]
  have h1 := countTU_countdownEvents n
  rw [countTU] at h1
  rw [h1]
  rfl

theorem countFin_trace (n : Nat) :
    countFin (countdownEvents n ++ [TimerEvent.finished]) = 1 := by
  rw [countFin, List.countP_append]
  have h1 := countFin_countdownEvents n
  rw [countFin] at h1
  rw [h1]
  rfl

theorem countPosTU_trace (n : Nat) :
    countPosTU (countdownEvents n ++ [TimerEvent.finished]) = n := by
  rw [countPosTU, List.countP_append]
  have h1 := countPosTU_countdownEvents n
  rw [countPosTU] at h1
  rw [h1]
  rfl

theorem tuValues_trace (n : Nat) :
    tuValues (countdownEvents n ++ [TimerEvent.finished]) = descInts n := by
  rw [tuValues, List.filterMap_append]
  have h1 := tuValues_countdownEvents n
  rw [tuValues] at h1
  rw [h1]
  simp

end TimerThread

open TimerThread in
/-- C1: starting the countdown engine with `d*60` seconds and letting it
run without pause, stop or restart produces, for any observation horizon
long enough for the loop to terminate, the trace `TimeUpdated(d*60),
TimeUpdated(d*60 - 1), ..., TimeUpdated(0), Finished`: that is `d*60 + 1`
`TimeUpdated` events (not `d*60` — the loop emits the initial full value
before the first decrement) with strictly decreasing values ending at 0,
followed by exactly one `Finished` event immediately after
`TimeUpdated(0)`. -/
theorem claim_C1 (d : Nat) (h : 1 ≤ d) (fuel : Nat) (hfuel : d * 60 + 1 ≤ fuel) :
    runUninterrupted fuel ((d * 60 : Nat) : Int) =
      countdownEvents (d * 60) ++ [TimerEvent.finished] ∧
    countTU (runUninterrupted fuel ((d * 60 : Nat) : Int)) = d * 60 + 1 ∧
    List.Chain' (fun a b => b < a) (tuValues (runUninterrupted fuel ((d * 60 : Nat) : Int))) ∧
    countFin (runUninterrupted fuel ((d * 60 : Nat) : Int)) = 1 ∧
    ∃ l, runUninterrupted fuel ((d * 60 : Nat) : Int) =
      l ++ [TimerEvent.timeUpdated 0, TimerEvent.finished] := by
  have hrun : runUninterrupted fuel ((d * 60 : Nat) : Int) =
      countdownEvents (d * 60) ++ [TimerEvent.finished] :=
    runLoop_natural (d * 60) fuel 0 hfuel
  refine ⟨hrun, ?_, ?_, ?_, ?_⟩
  · rw [hrun, countTU_trace]
  · rw [hrun, tuValues_trace]
    exact descInts_chain (d * 60)
  · rw [hrun, countFin_trace]
  · obtain ⟨l, hl⟩ := countdownEvents_concat (d * 60)
    refine ⟨l, ?_⟩
    rw [hrun, hl, List.append_assoc]
    rfl

/-- Witness for C1 at `d = 1`, horizon 61 iterations. -/
theorem claim_C1_witness :
    TimerThread.countTU
      (TimerThread.runUninterrupted 61 ((1 * 60 : Nat) : Int)) = 1 * 60 + 1 :=
  (claim_C1 1 (by decide) 61 (by decide)).2.1

/-- C1 counterexample: at `d = 1` the uninterrupted run emits 61
`TimeUpdated` events, not `d*60 = 60` as claimed — the loop also emits the
initial `TimeUpdated(60)` before the first decrement. -/
theorem claim_C1_cex :
    TimerThread.countTU (TimerThread.runUninterrupted 100 ((1 * 60 : Nat) : Int)) = 61 ∧
    TimerThread.countTU (TimerThread.runUninterrupted 100 ((1 * 60 : Nat) : Int)) ≠ 1 * 60 := by
  decide

open TimerThread in
/-- C6 (amended): `TimerThread.start_timer` never fails and is not guarded
by the engine state: from every state — Idle, Finished, Paused or Running —
it sets `duration` and `remaining` to the new duration and transitions to
Running (unpaused); called while Running it simply restarts the countdown
with the new duration, after which the uninterrupted run is the full fresh
countdown.  There is no `AlreadyRunning` failure anywhere in the engine
(the controller avoids calling it while running, but the engine itself
does not reject it). -/
theorem claim_C6 (s : TimerState) (n : Nat) :
    TimerThread.start_timer s ((n : Nat) : Int) =
      { duration := ((n : Nat) : Int), remaining := ((n : Nat) : Int),
        is_running := true, is_paused := false } ∧
    runUninterrupted (n + 1) ((TimerThread.start_timer s ((n : Nat) : Int)).remaining) =
      countdownEvents n ++ [TimerEvent.finished] := by
  refine ⟨rfl, ?_⟩
  exact runLoop_natural n (n + 1) 0 (le_refl _)

/-- C6 counterexample: with the engine Running (`is_running = true`,
`remaining = 10`), `start_timer 50` does not fail and does not leave the
state unchanged — the remaining time becomes 50. -/
theorem claim_C6_cex :
    (TimerThread.start_timer
      { duration := 60, remaining := 10, is_running := true, is_paused := false } 50).remaining
        = 50 ∧
    (TimerThread.start_timer
      { duration := 60, remaining := 10, is_running := true, is_paused := false } 50).remaining
        ≠ ({ duration := 60, remaining := 10, is_running := true,
             is_paused := false } : TimerState).remaining := by
  decide

open TimerThread in
/-- C7: a loop iteration taken while the pause flag is set neither
decrements the remaining time nor emits any event (the trace and the
threaded remaining value are those of the remaining iterations), and
consequently, for every pause schedule under which the run reaches
`Finished`, the number of decrementing iterations — those that emit
`TimeUpdated` with a positive value — is exactly `d*60`. -/
theorem claim_C7 (d : Nat) (h : 1 ≤ d) (p : Nat → Bool) (fuel k : Nat) (r : Int) :
    (p k = true → runLoop p (fuel + 1) k r = runLoop p fuel (k + 1) r) ∧
    (TimerEvent.finished ∈ runLoop p fuel 0 ((d * 60 : Nat) : Int) →
      countPosTU (runLoop p fuel 0 ((d * 60 : Nat) : Int)) = d * 60) := by
  refine ⟨fun hp => runLoop_paused p fuel k r hp, fun hfin => ?_⟩
  rw [runLoop_finished_eq p fuel 0 (d * 60) hfin, countPosTU_trace]

/-- Witness for C7 at `d = 1` with the never-paused schedule. -/
theorem claim_C7_witness :
    ((fun _ : Nat => false) 0 = true →
      TimerThread.runLoop (fun _ : Nat => false) (61 + 1) 0 0 =
        TimerThread.runLoop (fun _ : Nat => false) 61 1 0) ∧
    (TimerEvent.finished ∈ TimerThread.runLoop (fun _ : Nat => false) 61 0 ((1 * 60 : Nat) : Int) →
      TimerThread.countPosTU
        (TimerThread.runLoop (fun _ : Nat => false) 61 0 ((1 * 60 : Nat) : Int)) = 1 * 60) :=
  claim_C7 1 (by decide) (fun _ => false) 61 0 0

namespace PomodoroApp

theorem start_timer_db (a : AppState) : (start_timer a).db = a.db := by
  unfold start_timer
  split_ifs <;> rfl

theorem start_timer_session_type (a : AppState) :
    (start_timer a).session_type = a.session_type := by
  unfold start_timer
  split_ifs <;> rfl

theorem start_timer_current_session (a : AppState) :
    (start_timer a).current_session = a.current_session := by
  unfold start_timer
  split_ifs <;> rfl

theorem auto_start_db (a : AppState) : (auto_start a).db = a.db := by
  unfold auto_start
  split_ifs with h
  · exact start_timer_db a
  · rfl

theorem auto_start_session_type (a : AppState) :
    (auto_start a).session_type = a.session_type := by
  unfold auto_start
  split_ifs with h
  · exact start_timer_session_type a
  · rfl

theorem auto_start_current_session (a : AppState) :
    (auto_start a).current_session = a.current_session := by
  unfold auto_start
  split_ifs with h
  · exact start_timer_current_session a
  · rfl

theorem advance_session_db (a : AppState) : (advance_session a).db = a.db := by
  unfold advance_session
  split_ifs <;> rfl

theorem move_to_next_session_db (a : AppState) :
    (move_to_next_session a).db = a.db := by
  rw [move_to_next_session, auto_start_db, advance_session_db]

/-- The session-history effect of `timer_finished`: exactly one row is
appended, recording the current session type as completed with the
duration re-read from the cached settings. -/
theorem timer_finished_db (now : String) (a : AppState) :
    (timer_finished now a).db =
      a.db ++ [{ date := now, session_type := a.session_type,
                 duration := get_current_duration a, completed := 1,
                 task_name := a.task_input, notes := "" }] := by
  show (move_to_next_session _).db = _
  rw [move_to_next_session_db]
  rfl

end PomodoroApp

/-- C3: `reset_timer` (reset before natural completion) leaves the session
history untouched — it never appends a `SessionRecord` — while the
`Finished` handler `timer_finished` appends exactly one record, and that
record has `completed = 1` (true). -/
theorem claim_C3 (a : AppState) (now : String) :
    (PomodoroApp.reset_timer a).db = a.db ∧
    (PomodoroApp.timer_finished now a).db =
      a.db ++ [{ date := now, session_type := a.session_type,
                 duration := PomodoroApp.get_current_duration a, completed := 1,
                 task_name := a.task_input, notes := "" }] ∧
    ({ date := now, session_type := a.session_type,
       duration := PomodoroApp.get_current_duration a, completed := 1,
       task_name := a.task_input, notes := "" } : SessionRow).completed = 1 :=
  ⟨rfl, PomodoroApp.timer_finished_db now a, rfl⟩

/-- C2: the transition rule of the session-cycle controller: completing a
work session increments the cumulative work counter by exactly 1 and picks
`long_break` exactly when the counter is a multiple of
`long_break_interval` (otherwise `short_break`); completing a break leaves
the counter unchanged and returns to `work`.  With the default interval 4
and counter starting at 0, four consecutive naturally-completed work
sessions (breaks completed in between) yield the next-type sequence
`short_break, short_break, short_break, long_break`. -/
theorem claim_C2 (a : AppState) (h : 0 < a.long_break_interval) :
    (a.session_type = "work" →
      (PomodoroApp.move_to_next_session a).current_session = a.current_session + 1 ∧
      (PomodoroApp.move_to_next_session a).session_type =
        (if (a.current_session + 1) % a.long_break_interval = 0 then "long_break"
         else "short_break")) ∧
    (a.session_type ≠ "work" →
      (PomodoroApp.move_to_next_session a).session_type = "work" ∧
      (PomodoroApp.move_to_next_session a).current_session = a.current_session) ∧
    [(demoStates 1).session_type, (demoStates 3).session_type,
     (demoStates 5).session_type, (demoStates 7).session_type] =
      ["short_break", "short_break", "short_break", "long_break"] := by
  refine ⟨fun hw => ?_, fun hb => ?_, by decide⟩
  · rw [PomodoroApp.move_to_next_session, PomodoroApp.auto_start_current_session,
      PomodoroApp.auto_start_session_type, PomodoroApp.advance_session, if_pos hw]
    split_ifs with hm <;> exact ⟨rfl, rfl⟩
  · rw [PomodoroApp.move_to_next_session, PomodoroApp.auto_start_current_session,
      PomodoroApp.auto_start_session_type, PomodoroApp.advance_session, if_neg hb]
    exact ⟨rfl, rfl⟩

/-- Witness for C2: the work branch of the transition rule at the default
state (counter 0, interval 4). -/
theorem claim_C2_witness :
    (PomodoroApp.move_to_next_session demoState).current_session =
      demoState.current_session + 1 ∧
    (PomodoroApp.move_to_next_session demoState).session_type =
      (if (demoState.current_session + 1) % demoState.long_break_interval = 0 then "long_break"
       else "short_break") :=
  (claim_C2 demoState (by decide)).1 rfl

/-- C9: the duration persisted on natural completion is re-read from the
cached settings at completion time, not captured at countdown start: if
the work duration is `oldv` when the countdown starts (the engine is
started with `oldv * 60` seconds) and the settings are edited to `newv`
mid-countdown, the record written by `timer_finished` carries `newv` — not
the duration the countdown actually ran (`oldv`, when the two differ). -/
theorem claim_C9 (a : AppState) (oldv newv : Int) (now : String)
    (h : a.session_type = "work") :
    (PomodoroApp.start_timer (set_work_duration { a with is_running := false } oldv)).timer.duration
        = oldv * 60 ∧
    (PomodoroApp.timer_finished now
        (set_work_duration
          (PomodoroApp.start_timer (set_work_duration { a with is_running := false } oldv))
          newv)).db =
      (set_work_duration
          (PomodoroApp.start_timer (set_work_duration { a with is_running := false } oldv))
          newv).db ++
        [{ date := now, session_type := a.session_type, duration := newv, completed := 1,
           task_name := a.task_input, notes := "" }] ∧
    (oldv ≠ newv →
      newv ≠
        (PomodoroApp.start_timer
            (set_work_duration { a with is_running := false } oldv)).timer.duration / 60) := by
  have h1 : (PomodoroApp.start_timer
      (set_work_duration { a with is_running := false } oldv)).timer.duration = oldv * 60 := by
    simp [PomodoroApp.start_timer, set_work_duration, TimerThread.start_timer,
      PomodoroApp.get_current_duration, h]
  refine ⟨h1, ?_, ?_⟩
  · rw [PomodoroApp.timer_finished_db]
    have hst : (set_work_duration
        (PomodoroApp.start_timer (set_work_duration { a with is_running := false } oldv))
        newv).session_type = a.session_type := by
      simp [set_work_duration, PomodoroApp.start_timer_session_type]
    have hti : (set_work_duration
        (PomodoroApp.start_timer (set_work_duration { a with is_running := false } oldv))
        newv).task_input = a.task_input := by
      simp [set_work_duration, PomodoroApp.start_timer]
    have hdur : PomodoroApp.get_current_duration
        (set_work_duration
          (PomodoroApp.start_timer (set_work_duration { a with is_running := false } oldv))
          newv) = newv := by
      unfold PomodoroApp.get_current_duration
      rw [hst, h, if_pos rfl]
      rfl
    rw [hst, hti, hdur]
  · intro hne heq
    rw [h1] at heq
    apply hne
    omega

/-- Witness for C9 at the default state, durations 25 and 30. -/
theorem claim_C9_witness :
    (PomodoroApp.start_timer
      (set_work_duration { demoState with is_running := false } 25)).timer.duration = 25 * 60 :=
  (claim_C9 demoState 25 30 "2026-01-01T00:00:00" rfl).1

theorem validColumn_cases (k : String) (h : validColumn k = true) :
    k = "work_duration" ∨ k = "short_break" ∨ k = "long_break" ∨
    k = "long_break_interval" ∨ k = "auto_start_breaks" ∨ k = "auto_start_work" ∨
    k = "sound_enabled" ∨ k = "username" := by
  simp only [validColumn, Bool.or_eq_true, beq_iff_eq] at h
  tauto

theorem setColumn_invalid (k : String) (h : validColumn k = false) (r : SettingsRow)
    (v : Value) : setColumn r k v = none := by
  simp only [validColumn, Bool.or_eq_false_iff, beq_eq_false_iff_ne, ne_eq] at h
  obtain ⟨⟨⟨⟨⟨⟨⟨h1, h2⟩, h3⟩, h4⟩, h5⟩, h6⟩, h7⟩, h8⟩ := h
  simp [setColumn, h1, h2, h3, h4, h5, h6, h7, h8]

theorem setColumn_valid (k : String) (h : validColumn k = true) (r : SettingsRow)
    (v : Value) : ∃ r', setColumn r k v = some r' := by
  rcases validColumn_cases k h with rfl | rfl | rfl | rfl | rfl | rfl | rfl | rfl <;>
    exact ⟨_, rfl⟩

theorem applyUpdates_invalid (k : String) (hk : validColumn k = false) (v : Value)
    (post : List (String × Value)) :
    ∀ (pre : List (String × Value)) (r : SettingsRow),
      (∀ q ∈ pre, validColumn q.1 = true) →
      DatabaseManager.applyUpdates r (pre ++ (k, v) :: post) =
        (DatabaseManager.applyValidFields r pre, false) := by
  intro pre
  induction pre with
  | nil =>
    intro r _
    simp [DatabaseManager.applyUpdates, DatabaseManager.applyValidFields,
      setColumn_invalid k hk r v]
  | cons q pre ih =>
    intro r hq
    have hqv : validColumn q.1 = true := hq q (by simp)
    obtain ⟨r', hr'⟩ := setColumn_valid q.1 hqv r q.2
    have hfields : DatabaseManager.applyValidFields r (q :: pre) =
        DatabaseManager.applyValidFields r' pre := by
      rw [DatabaseManager.applyValidFields, List.foldl_cons, hr']
      rfl
    rw [List.cons_append, DatabaseManager.applyUpdates, hr', hfields]
    exact ih r' fun x hx => hq x (by simp [hx])

/-- C4 (amended): a call to `update_settings` containing an unknown field
name does fail (the spliced column name makes the underlying UPDATE
statement raise, so the final commit is skipped), but it is not rejected
before any mutation: the valid fields supplied *before* the first unknown
name have already been written to the settings row and remain visible to
every later read on the connection; only the fields from the unknown name
onward are left unapplied.  The row is unchanged only when the unknown
field happens to come first. -/
theorem claim_C4 (r : SettingsRow) (pre post : List (String × Value)) (k : String)
    (v : Value) (hpre : ∀ q ∈ pre, validColumn q.1 = true)
    (hk : validColumn k = false) :
    (DatabaseManager.update_settings (some r) (pre ++ (k, v) :: post)).2 = false ∧
    (DatabaseManager.update_settings (some r) (pre ++ (k, v) :: post)).1 =
      some (DatabaseManager.applyValidFields r pre) := by
  rw [DatabaseManager.update_settings, applyUpdates_invalid k hk v post pre r hpre]
  exact ⟨rfl, rfl⟩

/-- Witness for C4: one valid field before the unknown one. -/
theorem claim_C4_witness :
    (DatabaseManager.update_settings (some sampleRow)
      ([("work_duration", Value.intV 30)] ++ ("bogus", Value.intV 1) :: [])).2 = false ∧
    (DatabaseManager.update_settings (some sampleRow)
      ([("work_duration", Value.intV 30)] ++ ("bogus", Value.intV 1) :: [])).1 =
      some (DatabaseManager.applyValidFields sampleRow [("work_duration", Value.intV 30)]) :=
  claim_C4 sampleRow [("work_duration", Value.intV 30)] [] "bogus" (Value.intV 1)
    (by decide) (by decide)

/-- C4 counterexample: updating `{work_duration: 30, bogus: 1}` on the
default row fails, yet the row seen by any subsequent read is *not* the
unchanged original — `work_duration` was already set to 30 before the
unknown column raised, contradicting "the settings row is left completely
unchanged". -/
theorem claim_C4_cex :
    (DatabaseManager.update_settings (some sampleRow)
      [("work_duration", Value.intV 30), ("bogus", Value.intV 1)]).2 = false ∧
    (DatabaseManager.update_settings (some sampleRow)
      [("work_duration", Value.intV 30), ("bogus", Value.intV 1)]).1 ≠ some sampleRow := by
  decide

/-- C5: with an existing settings row, updating a single valid field `f`
to `v` succeeds, and the row subsequently returned by `get_settings` has
`v` at `f` and every other field unchanged. -/
theorem claim_C5 (r : SettingsRow) (f : String) (v : Value)
    (hf : validColumn f = true) :
    (DatabaseManager.update_settings (some r) [(f, v)]).2 = true ∧
    ∃ r', (DatabaseManager.update_settings (some r) [(f, v)]).1 = some r' ∧
      DatabaseManager.get_settings (some r') = some r' ∧
      getColumn r' f = some v ∧
      ∀ g, validColumn g = true → g ≠ f → getColumn r' g = getColumn r g := by
  rcases validColumn_cases f hf with rfl | rfl | rfl | rfl | rfl | rfl | rfl | rfl <;>
    refine ⟨rfl, _, rfl, rfl, rfl, fun g hg hgf => ?_⟩ <;>
    rcases validColumn_cases g hg with rfl | rfl | rfl | rfl | rfl | rfl | rfl | rfl <;>
    first
      | rfl
      | exact absurd rfl hgf

/-- Witness for C5: updating `work_duration` on the default row. -/
theorem claim_C5_witness :
    (DatabaseManager.update_settings (some sampleRow) [("work_duration", Value.intV 30)]).2
      = true :=
  (claim_C5 sampleRow "work_duration" (Value.intV 30) (by decide)).1

/-- C10: calling `update_settings` when no settings row exists is a silent
no-op: `get_settings` returned nothing, so the update loop is skipped
entirely — no error is raised, no row is inserted, and the store is
unchanged, whatever fields were supplied. -/
theorem claim_C10 (kwargs : List (String × Value)) :
    DatabaseManager.update_settings none kwargs = (none, true) := rfl

theorem string_eq_of_data {a b : String} (h : a.data = b.data) : a = b := by
  cases a
  cases b
  exact congrArg String.mk h

theorem charListLt_trichotomy : ∀ (as bs : List Char),
    charListLt as bs = true ∨ as = bs ∨ charListLt bs as = true := by
  intro as
  induction as with
  | nil =>
    intro bs
    cases bs with
    | nil => right; left; rfl
    | cons b bs => left; rfl
  | cons a as ih =>
    intro bs
    cases bs with
    | nil => right; right; rfl
    | cons b bs =>
      rcases lt_trichotomy a b with h | h | h
      · left
        simp [charListLt, h]
      · subst h
        rcases ih bs with h2 | h2 | h2
        · left
          simp [charListLt, h2]
        · right; left
          rw [h2]
        · right; right
          simp [charListLt, h2]
      · right; right
        simp [charListLt, h]

theorem strLtb_total (a b : String) (hne : a ≠ b) (hnlt : strLtb a b = false) :
    strLtb b a = true := by
  rcases charListLt_trichotomy a.data b.data with h | h | h
  · rw [strLtb] at hnlt
    rw [h] at hnlt
    exact Bool.noConfusion hnlt
  · exact absurd (string_eq_of_data h) hne
  · exact h

theorem insertDay_headOr (d : String) (l : List String) :
    (insertDay d l).head? = some d ∨ (insertDay d l).head? = l.head? := by
  cases l with
  | nil => left; rfl
  | cons y ys =>
    rw [insertDay]
    split_ifs with h1 h2
    · right; rfl
    · left; rfl
    · right; rfl

theorem chain'_insertDay (d : String) : ∀ (l : List String),
    List.Chain' (fun a b => strLtb a b = true) l →
    List.Chain' (fun a b => strLtb a b = true) (insertDay d l) := by
  intro l
  induction l with
  | nil => intro _; simp [insertDay]
  | cons y ys ih =>
    intro hc
    rw [List.chain'_cons'] at hc
    obtain ⟨hhead, htail⟩ := hc
    rw [insertDay]
    split_ifs with h1 h2
    · rw [List.chain'_cons']
      exact ⟨hhead, htail⟩
    · rw [List.chain'_cons']
      refine ⟨?_, ?_⟩
      · intro z hz
        simp only [List.head?_cons, Option.mem_def, Option.some_inj] at hz
        subst hz
        exact h2
      · rw [List.chain'_cons']
        exact ⟨hhead, htail⟩
    · rw [List.chain'_cons']
      refine ⟨?_, ih htail⟩
      intro z hz
      rcases insertDay_headOr d ys with hh | hh
      · rw [hh] at hz
        simp only [Option.mem_def, Option.some_inj] at hz
        subst hz
        exact strLtb_total d y h1 (by simpa using h2)
      · rw [hh] at hz
        exact hhead z hz

theorem mem_insertDay (d x : String) : ∀ (l : List String),
    x ∈ insertDay d l ↔ x = d ∨ x ∈ l := by
  intro l
  induction l with
  | nil => simp [insertDay]
  | cons y ys ih =>
    rw [insertDay]
    split_ifs with h1 h2
    · subst h1
      simp only [List.mem_cons]
      tauto
    · simp only [List.mem_cons]
    · simp only [List.mem_cons, ih]
      tauto

theorem chain'_foldl_insertDay (rows : List SessionRow) : ∀ (acc : List String),
    List.Chain' (fun a b => strLtb a b = true) acc →
    List.Chain' (fun a b => strLtb a b = true)
      (rows.foldl (fun acc s => insertDay (dayOf s.date) acc) acc) := by
  induction rows with
  | nil => intro acc h; exact h
  | cons s rows ih =>
    intro acc h
    exact ih _ (chain'_insertDay _ acc h)

theorem mem_foldl_insertDay (rows : List SessionRow) : ∀ (acc : List String) (x : String),
    x ∈ rows.foldl (fun acc s => insertDay (dayOf s.date) acc) acc ↔
      x ∈ acc ∨ ∃ s ∈ rows, x = dayOf s.date := by
  induction rows with
  | nil =>
    intro acc x
    simp
  | cons s rows ih =>
    intro acc x
    rw [List.foldl_cons, ih, mem_insertDay]
    constructor
    · rintro ((hd | hacc) | ⟨s', hs', hd⟩)
      · right; exact ⟨s, List.mem_cons_self s rows, hd⟩
      · left; exact hacc
      · right; exact ⟨s', List.mem_cons_of_mem s hs', hd⟩
    · rintro (hacc | ⟨s', hss', hd⟩)
      · left; right; exact hacc
      · rcases List.mem_cons.mp hss' with h | h
        · subst h; left; left; exact hd
        · right; exact ⟨s', h, hd⟩

theorem sum_map_ite (α : Type) (p : α → Bool) (f : α → Int) :
    ∀ (l : List α),
      (l.map fun a => if p a then f a else 0).sum = ((l.filter p).map f).sum := by
  intro l
  induction l with
  | nil => rfl
  | cons x xs ih =>
    cases h : p x <;> simp [List.filter_cons, h, ih]

/-- C8: `get_daily_stats` never fails — on an empty history it returns the
empty sequence — and on any history it returns one row per calendar day
carrying in-window sessions, in strictly ascending day order, where each
row's `work_minutes` sums `duration` exactly over the sessions of that day
(within the window) that are both of type `work` and completed. -/
theorem claim_C8 (sessions : List SessionRow) (date_limit : String) :
    DatabaseManager.get_daily_stats [] date_limit = [] ∧
    List.Chain' (fun a b => strLtb a.day b.day = true)
      (DatabaseManager.get_daily_stats sessions date_limit) ∧
    (∀ st ∈ DatabaseManager.get_daily_stats sessions date_limit,
      st.work_minutes =
        (((sessions.filter fun s => strLeb date_limit s.date).filter fun s =>
            dayOf s.date == st.day && (s.session_type == "work" && s.completed == 1)).map
          fun s => s.duration).sum) ∧
    (∀ dy, (∃ st ∈ DatabaseManager.get_daily_stats sessions date_limit, st.day = dy) ↔
      ∃ s ∈ sessions, strLeb date_limit s.date = true ∧ dayOf s.date = dy) := by
  refine ⟨rfl, ?_, ?_, ?_⟩
  · rw [DatabaseManager.get_daily_stats, List.chain'_map]
    simp only [DatabaseManager.dayStat]
    exact chain'_foldl_insertDay _ [] (by simp)
  · intro st hst
    rw [DatabaseManager.get_daily_stats, List.mem_map] at hst
    obtain ⟨d, hd, rfl⟩ := hst
    simp only [DatabaseManager.dayStat]
    rw [sum_map_ite SessionRow (fun s : SessionRow => s.session_type == "work" && s.completed == 1)
      (fun s : SessionRow => s.duration), List.filter_filter]
    exact congrArg (fun l : List SessionRow => (l.map fun s => s.duration).sum)
      (List.filter_congr fun x _ => Bool.and_comm _ _)
  · intro dy
    have hmap : (∃ st ∈ DatabaseManager.get_daily_stats sessions date_limit, st.day = dy) ↔
        dy ∈ (sessions.filter fun s => strLeb date_limit s.date).foldl
          (fun acc s => insertDay (dayOf s.date) acc) [] := by
      rw [DatabaseManager.get_daily_stats]
      constructor
      · rintro ⟨st, hst, rfl⟩
        rw [List.mem_map] at hst
        obtain ⟨d, hd, rfl⟩ := hst
        exact hd
      · intro hdy
        exact ⟨DatabaseManager.dayStat _ dy,
          List.mem_map_of_mem _ hdy, rfl⟩
    rw [hmap, mem_foldl_insertDay]
    simp only [List.not_mem_nil, false_or, List.mem_filter]
    constructor
    · rintro ⟨s, ⟨hs, hle⟩, hd⟩
      exact ⟨s, hs, hle, hd.symm⟩
    · rintro ⟨s, hs, hle, hd⟩
      exact ⟨s, ⟨hs, hle⟩, hd.symm⟩

/-- Witness for C8 on a one-session history. -/
theorem claim_C8_witness :
    exStat.work_minutes =
      (((exSessions.filter fun s => strLeb "2026-01-01T00:00:00" s.date).filter fun s =>
          dayOf s.date == exStat.day && (s.session_type == "work" && s.completed == 1)).map
        fun s => s.duration).sum :=
  (claim_C8 exSessions "2026-01-01T00:00:00").2.2.1 exStat (by decide)

end PomodoroSpec
